import Mathlib

/-!
Verification of the signal-computation engine of `bot.py` (a KOSPI screening
bot): universe construction, per-ticker level calculation (pivots, ATR, EMA,
derived bands, composite score), ranking, and the position evaluator.

Prices are embedded as rationals (`ℚ`); Python's `int(x)` truncation toward
zero is modelled by `pyInt`, and the `"lo~hi"` band strings by `fmtRange`.
Market-data fetches are passed in as explicit values; a fetch that raises an
exception in Python is modelled by the `Fetch.err` constructor and `Except`.
-/

set_option maxRecDepth 400000

namespace StockBot

/-- Configuration defaults (bot.py lines 20-25): `MAX_PRICE` price cap. -/
def MAX_PRICE : ℚ := 150000

/-- Universe size cap (bot.py line 21). -/
def TOP_N : ℕ := 200

/-- 20-day mean traded-value lower bound (bot.py line 22). -/
def MIN_TRADING_VALUE : ℚ := 5000000000

/-- ATR lookback length (bot.py line 23). -/
def ATR_N : ℕ := 20

/-- EMA span (bot.py line 24). -/
def EMA_N : ℕ := 20

/-- Price level below which the score bonus applies (bot.py line 25). -/
def PRICE_BONUS : ℚ := 100000

/-- One daily OHLC bar (the `고가`/`저가`/`종가` columns used by `calc_levels`). -/
structure Bar where
  high : ℚ
  low : ℚ
  close : ℚ
deriving DecidableEq

instance : Inhabited Bar := ⟨⟨0, 0, 0⟩⟩

/-- Python `int(x)` on a float: truncation toward zero, i.e. T-division of
the numerator by the denominator. -/
def pyInt (q : ℚ) : ℤ :=
  q.num.tdiv (q.den : ℤ)

/-- The band string Python builds as an f-string of the form lo~hi. -/
def fmtRange (lo hi : ℤ) : String :=
  toString lo ++ "~" ++ toString hi

/-- Arithmetic mean, as pandas `.mean()` over a column of rationals. -/
def mean (xs : List ℚ) : ℚ :=
  xs.sum / (xs.length : ℚ)

/-- The last `k` elements of a list (pandas `.tail(k)` / the final rolling
window). -/
def lastN (k : ℕ) (xs : List α) : List α :=
  xs.drop (xs.length - k)

/-- Python `round(x, 4)`. The scorer only ever rounds exact multiples of
`1/10`, where no tie arises, so the tie-breaking rule is irrelevant. -/
def round4 (q : ℚ) : ℚ :=
  ((round (q * 10000) : ℤ) : ℚ) / 10000

/-- Wilder-style true range of the bar `q` given the previous bar `p`
(bot.py line 206: `np.maximum(high - low, np.maximum(abs(high - prev),
abs(low - prev)))`). -/
def tr_of (p q : Bar) : ℚ :=
  max (q.high - q.low) (max |q.high - p.close| |q.low - p.close|)

/-- The true-range series: `prev = close.shift(1)` with elementwise maxima.
pandas leaves index 0 as NaN, and a window of the last `ATR_N` values of a
series of length `≥ ATR_N + 1` never touches it, so that entry is dropped. -/
def tr_series : List Bar → List ℚ
  | p :: q :: rest => tr_of p q :: tr_series (q :: rest)
  | _ => []

/-- One step of pandas `ewm(span).mean()` with `adjust=True`: weighted
numerator and denominator with decay `1 - alpha`. -/
def ewm_step (alpha : ℚ) (nd : ℚ × ℚ) (x : ℚ) : ℚ × ℚ :=
  ((1 - alpha) * nd.1 + x, (1 - alpha) * nd.2 + 1)

/-- pandas `close.ewm(span=n).mean().iloc[-1]` (`adjust=True`, the default
used by bot.py line 210): smoothing factor `2 / (n + 1)`. -/
def ewm_mean (n : ℕ) (xs : List ℚ) : ℚ :=
  let alpha : ℚ := 2 / ((n : ℚ) + 1)
  let nd := xs.foldl (ewm_step alpha) (0, 0)
  nd.1 / nd.2

/-- The row dict returned by `calc_levels` (bot.py lines 227-233). -/
structure LevelRecord where
  ticker : String
  name : String
  close : ℤ
  buy_pivot : String
  sell_pivot : String
  buy_atr : String
  sell_atr : String
  stop : ℤ
  atr : ℚ
  ema : ℚ
  score : ℚ
  in_atr_buy : Bool
  in_pivot_buy : Bool
deriving DecidableEq

/-- Embedding of `calc_levels` (bot.py lines 188-233).  The fetched
DataFrame is passed in as `df : Option (List Bar)` (`none` = pykrx returned
`None`); the ticker display name is passed in for
`stock.get_market_ticker_name`.  Python's `0.5`/`1.0`/`1.5` multipliers are
the exact rationals `1/2`, `1`, `3/2`. -/
def calc_levels (tkr name : String) (df : Option (List Bar)) : Option LevelRecord :=
  match df with
  | none => none
  | some bars =>
    if bars.length < EMA_N + 1 then
      none
    else
      let b := bars.getLastD default
      let h := b.high
      let l := b.low
      let c := b.close
      let pp := (h + l + c) / 3
      let s1 := 2 * pp - h
      let r1 := 2 * pp - l
      let s2 := pp - (h - l)
      let r2 := pp + (h - l)
      let atr := mean (lastN ATR_N (tr_series bars))
      let ema := ewm_mean EMA_N (bars.map Bar.close)
      let atr_buy_lo := ema - 1 * atr
      let atr_buy_hi := ema - 1/2 * atr
      let atr_sell_lo := ema + 1/2 * atr
      let atr_sell_hi := ema + 1 * atr
      let stop := min s2 (ema - 3/2 * atr)
      let in_atr := decide (atr_buy_lo ≤ c ∧ c ≤ atr_buy_hi)
      let in_pivot := decide (s2 ≤ c ∧ c ≤ s1)
      let score := (if in_atr && in_pivot then (1 : ℚ)
          else if in_atr || in_pivot then 1/2 else 0) +
        (if c ≤ PRICE_BONUS then 3/10 else 0)
      some { ticker := tkr, name := name, close := pyInt c,
             buy_pivot := fmtRange (pyInt s2) (pyInt s1),
             sell_pivot := fmtRange (pyInt r1) (pyInt r2),
             buy_atr := fmtRange (pyInt atr_buy_lo) (pyInt atr_buy_hi),
             sell_atr := fmtRange (pyInt atr_sell_lo) (pyInt atr_sell_hi),
             stop := pyInt stop, atr := atr, ema := ema,
             score := round4 score,
             in_atr_buy := in_atr, in_pivot_buy := in_pivot }

/-- The most recent completed bar (`df[...].iloc[-1]`). -/
def lastBar (bars : List Bar) : Bar :=
  bars.getLastD default

/-- Classic floor-trader pivot, from the spec: `pp = (h + l + c) / 3`. -/
def pp_spec (b : Bar) : ℚ :=
  (b.high + b.low + b.close) / 3

/-- First support level, from the spec: `s1 = 2·pp − h`. -/
def s1_spec (b : Bar) : ℚ :=
  2 * pp_spec b - b.high

/-- First resistance level, from the spec: `r1 = 2·pp − l`. -/
def r1_spec (b : Bar) : ℚ :=
  2 * pp_spec b - b.low

/-- Second support level, from the spec: `s2 = pp − (h − l)`. -/
def s2_spec (b : Bar) : ℚ :=
  pp_spec b - (b.high - b.low)

/-- Second resistance level, from the spec: `r2 = pp + (h − l)`. -/
def r2_spec (b : Bar) : ℚ :=
  pp_spec b + (b.high - b.low)

/-- The spec's indexed true range: `true_range[i] = max(high[i]-low[i],
abs(high[i]-close[i-1]), abs(low[i]-close[i-1]))`. -/
def true_range (bars : List Bar) (i : ℕ) : ℚ :=
  tr_of (bars.getD (i - 1) default) (bars.getD i default)

/-- The spec's ATR: the plain arithmetic mean of the last `ATR_N`
true-range values (indices `n - ATR_N, …, n - 1`), not Wilder smoothing. -/
def atr_spec (bars : List Bar) : ℚ :=
  mean ((List.range' (bars.length - ATR_N) ATR_N).map (true_range bars))

/-- EMA of the close column with span `EMA_N` (smoothing factor
`2/(EMA_N+1)`), shared between the code path and the spec formulas. -/
def ema_spec (bars : List Bar) : ℚ :=
  ewm_mean EMA_N (bars.map Bar.close)

/-- Spec band: `buy_atr` lower endpoint `ema − 1.0·atr`. -/
def buy_atr_lo_spec (bars : List Bar) : ℚ :=
  ema_spec bars - 1 * atr_spec bars

/-- Spec band: `buy_atr` upper endpoint `ema − 0.5·atr`. -/
def buy_atr_hi_spec (bars : List Bar) : ℚ :=
  ema_spec bars - 1/2 * atr_spec bars

/-- Spec band: `sell_atr` lower endpoint `ema + 0.5·atr`. -/
def sell_atr_lo_spec (bars : List Bar) : ℚ :=
  ema_spec bars + 1/2 * atr_spec bars

/-- Spec band: `sell_atr` upper endpoint `ema + 1.0·atr`. -/
def sell_atr_hi_spec (bars : List Bar) : ℚ :=
  ema_spec bars + 1 * atr_spec bars

/-- Spec stop: `min(s2, ema − 1.5·atr)`. -/
def stop_spec (bars : List Bar) : ℚ :=
  min (s2_spec (lastBar bars)) (ema_spec bars - 3/2 * atr_spec bars)

/-- Spec flag: the last close lies in the closed buy-ATR band. -/
def in_atr_spec (bars : List Bar) : Bool :=
  decide (buy_atr_lo_spec bars ≤ (lastBar bars).close ∧
    (lastBar bars).close ≤ buy_atr_hi_spec bars)

/-- Spec flag: the last close lies in the closed pivot band `[s2, s1]`. -/
def in_pivot_spec (bars : List Bar) : Bool :=
  decide (s2_spec (lastBar bars) ≤ (lastBar bars).close ∧
    (lastBar bars).close ≤ s1_spec (lastBar bars))

/-- Spec score: `1.0` both flags, `0.5` exactly one, `0.0` neither, plus
`0.3` when the close is at most `PRICE_BONUS`. -/
def score_spec (bars : List Bar) : ℚ :=
  (if in_atr_spec bars && in_pivot_spec bars then (1 : ℚ)
    else if in_atr_spec bars || in_pivot_spec bars then 1/2 else 0) +
  (if (lastBar bars).close ≤ PRICE_BONUS then 3/10 else 0)

/-- Result of one pykrx data fetch as observed by the caller: data, a
`None`/empty answer, or a raised exception. -/
inductive Fetch (α : Type) where
  | ok : α → Fetch α
  | missing : Fetch α
  | err : Fetch α
deriving DecidableEq

deriving instance DecidableEq for Except

/-- The DataFrame a non-raising fetch delivers to `calc_levels`. -/
def fetch_df : Fetch (List Bar) → Option (List Bar)
  | Fetch.ok bars => some bars
  | _ => none

/-- `calc_levels` at the exception level: the fetch on bot.py line 192 is
not guarded by any try/except inside `calc_levels`, so a raising fetch
propagates the exception (`Except.error`). -/
def calc_levels_fetch (tkr name : String) (f : Fetch (List Bar)) :
    Except Unit (Option LevelRecord) :=
  match f with
  | Fetch.err => Except.error ()
  | Fetch.missing => Except.ok (calc_levels tkr name none)
  | Fetch.ok bars => Except.ok (calc_levels tkr name (some bars))

/-- The per-ticker loop of `main` (bot.py lines 329-333): `rows` collects
the non-`None` results in order; there is no per-ticker try/except, so an
exception raised for any ticker aborts the whole loop. -/
def run_batch : List (String × String × Fetch (List Bar)) → Except Unit (List LevelRecord)
  | [] => Except.ok []
  | (t, n, f) :: rest =>
    match calc_levels_fetch t n f with
    | Except.error e => Except.error e
    | Except.ok lv =>
      match run_batch rest with
      | Except.error e => Except.error e
      | Except.ok rows =>
        Except.ok (match lv with
          | some r => r :: rows
          | none => rows)

/-- The two-key comparison of `df.sort_values(["score", "close"],
ascending=[False, False])` (bot.py line 254): score descending, ties by
close descending. -/
def rankLE (a b : LevelRecord) : Bool :=
  decide (b.score < a.score) || (decide (a.score = b.score) && decide (b.close ≤ a.close))

/-- The ranking step of `write_universe_and_top10` (bot.py lines 254-256),
with the row count `n` (the source uses `head(10)`): pandas multi-column
`sort_values` is `numpy.lexsort`, a stable sort, embedded as a stable
merge sort; `rank` is `1..len(out)` in sorted order. -/
def rank_rows (rows : List LevelRecord) (n : ℕ) : List (ℕ × LevelRecord) :=
  ((rows.mergeSort rankLE).take n).enum.map (fun p => (p.1 + 1, p.2))

/-- The `top10_today` view: `head(10)`. -/
def top10 (rows : List LevelRecord) : List (ℕ × LevelRecord) :=
  rank_rows rows 10

/-- One row of the market-cap table consumed by `build_universe`:
ticker, market cap (`시가총액`), reference-date close (`종가`). -/
structure TickerSnapshot where
  ticker : String
  market_cap : ℚ
  close : ℚ
deriving DecidableEq

/-- One row of the trailing OHLCV frame used by the liquidity screen:
traded value (`거래대금`), volume (`거래량`), close (`종가`). -/
structure UniBar where
  value : ℚ
  volume : ℚ
  close : ℚ
deriving DecidableEq

/-- A liquidity-screen DataFrame: `has_value` records whether the
`거래대금` column is present. -/
structure UniBars where
  has_value : Bool
  bars : List UniBar
deriving DecidableEq

/-- Market-cap descending comparison of `sort_values("시가총액",
ascending=False)`. -/
def capLE (a b : TickerSnapshot) : Bool :=
  decide (b.market_cap ≤ a.market_cap)

/-- The 20-day average traded value (bot.py line 179): the mean of the
last 20 `거래대금` values, or of volume×close when that column is absent. -/
def avg_val (d : UniBars) : ℚ :=
  if d.has_value then mean ((lastN 20 d.bars).map UniBar.value)
  else mean ((lastN 20 d.bars).map (fun b => b.volume * b.close))

/-- The per-ticker liquidity screen (bot.py lines 174-183): a raised fetch
is caught by the surrounding try/except and the ticker skipped; a `None`
frame or fewer than 25 bars skips; otherwise Python's
`if avg_val and avg_val >= MIN_TRADING_VALUE` keeps the ticker (`avg_val`
must be truthy, i.e. non-zero, and at least the threshold). -/
def liquidity_ok : Fetch UniBars → Bool
  | Fetch.ok d =>
    if d.bars.length < 25 then false
    else decide (avg_val d ≠ 0) && decide (MIN_TRADING_VALUE ≤ avg_val d)
  | _ => false

/-- Embedding of `build_universe` (bot.py lines 164-186): sort the cap
table by market cap descending, keep the top `max(TOP_N*2, 300)`, drop
closes above `MAX_PRICE`, apply the liquidity screen, then re-rank the
survivors by market cap descending and keep the top `TOP_N`. -/
def build_universe (caps : List TickerSnapshot) (fetch : String → Fetch UniBars) :
    List TickerSnapshot :=
  let cap1 := (caps.mergeSort capLE).take (max (TOP_N * 2) 300)
  let cap2 := cap1.filter (fun t => decide (t.close ≤ MAX_PRICE))
  let ok := cap2.filter (fun t => liquidity_ok (fetch t.ticker))
  (ok.mergeSort capLE).take TOP_N

/-- One row of the externally maintained `positions` sheet; cells are read
back as strings. -/
structure Position where
  ticker : String
  name : String
  qty : String
  avg_cost : String
  note : String
deriving DecidableEq

/-- One sell alert produced by `check_positions_and_alert`: ticker,
display name, the parsed ATR sell-band upper bound, and the parsed
average cost. -/
structure SellAlert where
  ticker : String
  name : String
  target : ℤ
  avg_cost : ℤ
deriving DecidableEq

/-- Python `str.split(sep)` for a one-character separator, on the
character list of the string. -/
def split_on_char (ch : Char) : List Char → List (List Char)
  | [] => [[]]
  | c :: rest =>
    if c = ch then [] :: split_on_char ch rest
    else
      match split_on_char ch rest with
      | h :: t => (c :: h) :: t
      | [] => [[c]]

/-- Python `str.strip()`: drop leading and trailing whitespace. -/
def trim_chars (cs : List Char) : List Char :=
  ((cs.dropWhile Char.isWhitespace).reverse.dropWhile Char.isWhitespace).reverse

/-- Decimal digit value of a character, `none` for a non-digit. -/
def digit_val (c : Char) : Option ℕ :=
  if c.isDigit then some (c.toNat - 48) else none

/-- Parse a non-empty all-digit character list as a natural number. -/
def parse_nat_chars (cs : List Char) : Option ℕ :=
  if cs.isEmpty then none
  else cs.foldl (fun acc c => acc.bind (fun n => (digit_val c).map (fun d => 10 * n + d))) (some 0)

/-- Split an optional leading sign off a character list. -/
def parse_sign : List Char → ℤ × List Char
  | [] => (1, [])
  | c :: rest =>
    if c = ('-') then (-1, rest)
    else if c = ('+') then (1, rest)
    else (1, c :: rest)

/-- Python `int(s)` on a string: strip whitespace, optional sign, decimal
digits; anything else raises (here: `none`).  (Underscore grouping and
non-ASCII digits, which Python also accepts, do not occur in this
program's data and are not modelled.) -/
def py_int_chars (cs : List Char) : Option ℤ :=
  let t := trim_chars cs
  let sg := parse_sign t
  (parse_nat_chars sg.2).map (fun n => sg.1 * (n : ℤ))

/-- Python `float(s)` on a plain decimal string, exactly: strip
whitespace, optional sign, `digits`, `digits.`, `.digits` or
`digits.digits`.  (Exponent and inf/nan forms do not occur in this
program's data and are not modelled.) -/
def py_float_chars (cs : List Char) : Option ℚ :=
  let t := trim_chars cs
  let sg := parse_sign t
  match split_on_char ('.') sg.2 with
  | [a] => (parse_nat_chars a).map (fun n => (sg.1 : ℚ) * (n : ℚ))
  | [a, b] =>
    if a.isEmpty && b.isEmpty then none
    else
      let ip := if a.isEmpty then some 0 else parse_nat_chars a
      let fp := if b.isEmpty then some 0 else parse_nat_chars b
      ip.bind (fun n => fp.map (fun m =>
        (sg.1 : ℚ) * ((n : ℚ) + (m : ℚ) / (10 : ℚ) ^ b.length)))
  | _ => none

/-- `int(str(sell_atr).split("~")[1])` (bot.py line 295): the integer
after the `~`; any failure (missing `~`, non-numeric tail) is caught and
yields `none`. -/
def sell_upper (s : String) : Option ℤ :=
  ((split_on_char ('~') s.toList)[1]?).bind py_int_chars

/-- `int(float(avg_cost)) if str(avg_cost).strip() != "" else None`
(bot.py line 299), with parse failures caught to `none`. -/
def avg_cost_int (s : String) : Option ℤ :=
  if (trim_chars s.toList).isEmpty then none
  else (py_float_chars s.toList).map pyInt

/-- One iteration of the alert loop of `check_positions_and_alert`
(bot.py lines 291-308) for position `p`: the pandas left-merge on
`ticker` is a lookup into the universe records (at most one row per
ticker); a position without a matching record gets NaN fields whose
string form fails band parsing, so it is skipped exactly like an
unparseable band or a blank/unparseable average cost. -/
def eval_position (records : List LevelRecord) (p : Position) : Option SellAlert :=
  match records.find? (fun r => r.ticker == p.ticker) with
  | none => none
  | some r =>
    match sell_upper r.sell_atr, avg_cost_int p.avg_cost with
    | some hi, some a =>
      if a < hi then
        some { ticker := p.ticker,
               name := if p.name = "" then r.name else p.name,
               target := hi, avg_cost := a }
      else none
    | _, _ => none

/-- The alert list of `check_positions_and_alert` over all positions. -/
def check_positions_and_alert (positions : List Position) (records : List LevelRecord) :
    List SellAlert :=
  positions.filterMap (eval_position records)

/-- 21 identical bars with `h=1025, l=975, c=1000`: `ema = 1000`,
`atr = 50`, realising the spec's `ema=1000, atr=50` example. -/
def flat1000 : List Bar :=
  List.replicate 21 ⟨1025, 975, 1000⟩

/-- 21 identical bars whose last bar is the spec's pivot example
`h=105, l=95, c=100`. -/
def flat105 : List Bar :=
  List.replicate 21 ⟨105, 95, 100⟩

/-- 21 bars, all closes 100, with one huge spike bar: `ema = 100`,
`atr = 100.5`, so the buy-band lower endpoint `ema − atr = −1/2` is
negative and truncation toward zero differs from the floor. -/
def spike_bars : List Bar :=
  ⟨100, 100, 100⟩ :: ⟨2110, 100, 100⟩ :: List.replicate 19 ⟨100, 100, 100⟩

/-- Ticker / name strings for concrete witnesses. -/
def tkr_a : String := "A"

/-- Display name for concrete witnesses. -/
def name_a : String := "Alpha"

/-- A healthy batch entry. -/
def good_entry : String × String × Fetch (List Bar) := (tkr_a, name_a, Fetch.ok flat1000)

/-- A batch entry whose fetch raises. -/
def err_entry : String × String × Fetch (List Bar) := ("B", "B", Fetch.err)

/-- A concrete market-cap row for the universe witness. -/
def snap_a : TickerSnapshot := ⟨"AAA", 100, 50⟩

/-- A liquidity frame with 25 bars of traded value 6·10⁹. -/
def good_uni_bars : UniBars := ⟨true, List.replicate 25 ⟨6000000000, 0, 0⟩⟩

/-- A concrete fetch map for the universe witness. -/
def fetch_w : String → Fetch UniBars :=
  fun s => if s = snap_a.ticker then Fetch.ok good_uni_bars else Fetch.err

/-- A universe record with sell band `1025~1050` for the position witness. -/
def rec_sell : LevelRecord :=
  ⟨"AAA", "Alpha", 0, "", "", "", "1025~1050", 0, 0, 0, 0, false, false⟩

/-- A position with average cost 900 (flagged against `1025~1050`). -/
def pos900 : Position := ⟨"AAA", "Me", "1", "900", ""⟩

/-- A position with average cost 1100 (not flagged against `1025~1050`). -/
def pos1100 : Position := ⟨"AAA", "Me", "1", "1100", ""⟩

/-- The shifted true-range series has one entry per consecutive bar pair. -/
theorem tr_series_length : ∀ (bars : List Bar), (tr_series bars).length = bars.length - 1
  | [] => rfl
  | [_] => rfl
  | _ :: q :: rest => by
    simp only [tr_series, List.length_cons, tr_series_length (q :: rest)]
    omega

/-- Entry `i` of the true-range series is the true range of bar `i + 1`
against the close of bar `i`. -/
theorem tr_series_getElem? : ∀ (bars : List Bar) (i : ℕ), i + 1 < bars.length →
    (tr_series bars)[i]? = some (tr_of (bars.getD i default) (bars.getD (i + 1) default))
  | [], i, h => by simp at h
  | [_], i, h => by simp at h
  | p :: q :: rest, 0, _ => by
    simp [tr_series]
  | p :: q :: rest, i + 1, h => by
    have ih := tr_series_getElem? (q :: rest) i (by simp only [List.length_cons] at h ⊢; omega)
    simpa [tr_series] using ih

/-- The final rolling window of the NaN-shifted true-range series is
exactly the spec's last `ATR_N` indexed true-range values. -/
theorem lastN_tr_series (bars : List Bar) (h : ATR_N + 1 ≤ bars.length) :
    lastN ATR_N (tr_series bars) =
      (List.range' (bars.length - ATR_N) ATR_N).map (true_range bars) := by
  have hlen : (tr_series bars).length = bars.length - 1 := tr_series_length bars
  apply List.ext_getElem?
  intro i
  by_cases hi : i < ATR_N
  · rw [lastN, List.getElem?_drop, hlen]
    have hb : (bars.length - 1 - ATR_N + i) + 1 < bars.length := by
      unfold ATR_N at h hi ⊢; omega
    rw [tr_series_getElem? bars _ hb, List.getElem?_map, List.getElem?_range' _ _ hi]
    have h1 : bars.length - ATR_N + 1 * i - 1 = bars.length - 1 - ATR_N + i := by
      unfold ATR_N at h hi ⊢; omega
    have h2 : bars.length - ATR_N + 1 * i = bars.length - 1 - ATR_N + i + 1 := by
      unfold ATR_N at h hi ⊢; omega
    simp only [Option.map_some', true_range, h1, h2, Nat.add_sub_cancel]
  · have h1 : (lastN ATR_N (tr_series bars))[i]? = none := by
      apply List.getElem?_eq_none
      simp only [lastN, List.length_drop, hlen]
      omega
    have h2 : ((List.range' (bars.length - ATR_N) ATR_N).map (true_range bars))[i]? = none := by
      apply List.getElem?_eq_none
      simp only [List.length_map, List.length_range']
      omega
    rw [h1, h2]

/-- Truncation toward zero is the floor for non-negative arguments and the
ceiling for negative ones. -/
theorem pyInt_eq (q : ℚ) : pyInt q = if 0 ≤ q then ⌊q⌋ else ⌈q⌉ := by
  unfold pyInt
  split
  · next h =>
    rw [Rat.floor_def]
    exact Int.tdiv_eq_ediv (Rat.num_nonneg.mpr h) (Int.ofNat_nonneg _)
  · next h =>
    have hq : q < 0 := lt_of_not_ge h
    have hnum : q.num < 0 := Rat.num_neg.mpr hq
    have h1 : q.num.tdiv (q.den : ℤ) = -((-q.num).tdiv (q.den : ℤ)) := by
      rw [Int.neg_tdiv, Int.neg_neg]
    rw [h1, Int.tdiv_eq_ediv (by omega) (Int.ofNat_nonneg _)]
    have h2 : (⌈q⌉ : ℤ) = -⌊-q⌋ := by rw [Int.floor_neg]; ring
    rw [h2, Rat.floor_def, Rat.num_neg_eq_neg_num, Rat.den_neg_eq_den]

/-- Truncation toward zero is monotone. -/
theorem pyInt_mono {a b : ℚ} (h : a ≤ b) : pyInt a ≤ pyInt b := by
  rw [pyInt_eq, pyInt_eq]
  split
  · next ha =>
    rw [if_pos (le_trans ha h)]
    exact Int.floor_le_floor h
  · next ha =>
    split
    · next hb =>
      calc ⌈a⌉ ≤ 0 := Int.ceil_le.mpr (by push_cast; linarith [lt_of_not_ge ha])
        _ ≤ ⌊b⌋ := Int.floor_nonneg.mpr hb
    · next _ => exact Int.ceil_le_ceil h

/-- On any accepted bar series (length at least `EMA_N + 1`), `calc_levels`
produces exactly the record described by the spec-side formulas. -/
theorem calc_levels_eq_spec (tkr name : String) (bars : List Bar)
    (h : EMA_N + 1 ≤ bars.length) :
    calc_levels tkr name (some bars) =
      some { ticker := tkr, name := name,
             close := pyInt (lastBar bars).close,
             buy_pivot := fmtRange (pyInt (s2_spec (lastBar bars))) (pyInt (s1_spec (lastBar bars))),
             sell_pivot := fmtRange (pyInt (r1_spec (lastBar bars))) (pyInt (r2_spec (lastBar bars))),
             buy_atr := fmtRange (pyInt (buy_atr_lo_spec bars)) (pyInt (buy_atr_hi_spec bars)),
             sell_atr := fmtRange (pyInt (sell_atr_lo_spec bars)) (pyInt (sell_atr_hi_spec bars)),
             stop := pyInt (stop_spec bars),
             atr := atr_spec bars, ema := ema_spec bars,
             score := round4 (score_spec bars),
             in_atr_buy := in_atr_spec bars, in_pivot_buy := in_pivot_spec bars } := by
  have hatr : mean (lastN ATR_N (tr_series bars)) = atr_spec bars := by
    rw [atr_spec, lastN_tr_series bars (by simp only [ATR_N]; simp only [EMA_N] at h; omega)]
  simp only [calc_levels]
  rw [if_neg (by omega)]
  simp only [hatr, lastBar, pp_spec, s1_spec, r1_spec, s2_spec, r2_spec,
    buy_atr_lo_spec, buy_atr_hi_spec, sell_atr_lo_spec, sell_atr_hi_spec,
    stop_spec, in_atr_spec, in_pivot_spec, score_spec, ema_spec]

/-- A true range is non-negative (it dominates an absolute value). -/
theorem tr_of_nonneg (p q : Bar) : 0 ≤ tr_of p q :=
  le_trans (abs_nonneg (q.high - p.close)) (le_trans (le_max_left _ _) (le_max_right _ _))

/-- The ATR is non-negative: a mean of true ranges. -/
theorem atr_spec_nonneg (bars : List Bar) : 0 ≤ atr_spec bars := by
  unfold atr_spec mean
  apply div_nonneg
  · apply List.sum_nonneg
    intro x hx
    rcases List.mem_map.mp hx with ⟨i, _, rfl⟩
    exact tr_of_nonneg _ _
  · exact Nat.cast_nonneg _

/-- C1, counterexample to the claim as stated: the claim requires every
band endpoint to be floor-truncated, but `calc_levels` applies Python
`int()`, which truncates toward zero.  On `spike_bars` (valid OHLC bars:
all closes 100, one huge spike) the buy-band lower endpoint is `−1/2`, so
the code formats `buy_atr` as the string with lower endpoint `0` while
floor-truncation would give `−1`. -/
theorem c1_floor_counterexample :
    (calc_levels tkr_a name_a (some spike_bars)).map LevelRecord.buy_atr = some "0~49"
    ∧ buy_atr_lo_spec spike_bars = -1/2
    ∧ ⌊(-1/2 : ℚ)⌋ = -1
    ∧ fmtRange (-1) 49 = "-1~49"
    ∧ ("0~49" : String) ≠ "-1~49" := by
  refine ⟨by with_unfolding_all rfl, by with_unfolding_all rfl,
    by with_unfolding_all decide, by decide, by decide⟩

/-- C1, amended: for every accepted bar series the derived bands satisfy
`buy_atr = [ema − 1.0·atr, ema − 0.5·atr]`, `sell_atr = [ema + 0.5·atr,
ema + 1.0·atr]` and `stop = min(s2, ema − 1.5·atr)`; the band endpoints
and the stop are truncated toward zero (Python `int`, which agrees with
the floor on non-negative values) before formatting; `atr` and `ema` are
stored at full precision and `score` is rounded to 4 decimals. -/
theorem c1_truncated_bands (tkr name : String) (bars : List Bar)
    (h : EMA_N + 1 ≤ bars.length) :
    (calc_levels tkr name (some bars)).map LevelRecord.buy_atr =
      some (fmtRange (pyInt (buy_atr_lo_spec bars)) (pyInt (buy_atr_hi_spec bars)))
    ∧ (calc_levels tkr name (some bars)).map LevelRecord.sell_atr =
      some (fmtRange (pyInt (sell_atr_lo_spec bars)) (pyInt (sell_atr_hi_spec bars)))
    ∧ (calc_levels tkr name (some bars)).map LevelRecord.stop = some (pyInt (stop_spec bars))
    ∧ (calc_levels tkr name (some bars)).map LevelRecord.atr = some (atr_spec bars)
    ∧ (calc_levels tkr name (some bars)).map LevelRecord.ema = some (ema_spec bars)
    ∧ (calc_levels tkr name (some bars)).map LevelRecord.score = some (round4 (score_spec bars))
    ∧ buy_atr_lo_spec bars = ema_spec bars - 1 * atr_spec bars
    ∧ buy_atr_hi_spec bars = ema_spec bars - 1/2 * atr_spec bars
    ∧ sell_atr_lo_spec bars = ema_spec bars + 1/2 * atr_spec bars
    ∧ sell_atr_hi_spec bars = ema_spec bars + 1 * atr_spec bars
    ∧ stop_spec bars = min (s2_spec (lastBar bars)) (ema_spec bars - 3/2 * atr_spec bars) := by
  rw [calc_levels_eq_spec tkr name bars h]
  exact ⟨rfl, rfl, rfl, rfl, rfl, rfl, rfl, rfl, rfl, rfl, rfl⟩

/-- C1, witness: on `flat1000` (`ema = 1000`, `atr = 50`) the amended
theorem applies, and the bands are exactly the spec's example values
`buy_atr = 950~975`, `sell_atr = 1025~1050`, `stop = min(s2, 925) = 925`. -/
theorem c1_truncated_bands_witness :
    (EMA_N + 1 ≤ flat1000.length)
    ∧ ((calc_levels tkr_a name_a (some flat1000)).map LevelRecord.buy_atr =
        some (fmtRange (pyInt (buy_atr_lo_spec flat1000)) (pyInt (buy_atr_hi_spec flat1000)))
      ∧ (calc_levels tkr_a name_a (some flat1000)).map LevelRecord.sell_atr =
        some (fmtRange (pyInt (sell_atr_lo_spec flat1000)) (pyInt (sell_atr_hi_spec flat1000)))
      ∧ (calc_levels tkr_a name_a (some flat1000)).map LevelRecord.stop =
        some (pyInt (stop_spec flat1000))
      ∧ (calc_levels tkr_a name_a (some flat1000)).map LevelRecord.atr = some (atr_spec flat1000)
      ∧ (calc_levels tkr_a name_a (some flat1000)).map LevelRecord.ema = some (ema_spec flat1000)
      ∧ (calc_levels tkr_a name_a (some flat1000)).map LevelRecord.score =
        some (round4 (score_spec flat1000))
      ∧ buy_atr_lo_spec flat1000 = ema_spec flat1000 - 1 * atr_spec flat1000
      ∧ buy_atr_hi_spec flat1000 = ema_spec flat1000 - 1/2 * atr_spec flat1000
      ∧ sell_atr_lo_spec flat1000 = ema_spec flat1000 + 1/2 * atr_spec flat1000
      ∧ sell_atr_hi_spec flat1000 = ema_spec flat1000 + 1 * atr_spec flat1000
      ∧ stop_spec flat1000 = min (s2_spec (lastBar flat1000)) (ema_spec flat1000 - 3/2 * atr_spec flat1000))
    ∧ (ema_spec flat1000 = 1000 ∧ atr_spec flat1000 = 50
      ∧ (calc_levels tkr_a name_a (some flat1000)).map LevelRecord.buy_atr = some "950~975"
      ∧ (calc_levels tkr_a name_a (some flat1000)).map LevelRecord.sell_atr = some "1025~1050"
      ∧ s2_spec (lastBar flat1000) = 950
      ∧ (calc_levels tkr_a name_a (some flat1000)).map LevelRecord.stop = some 925) :=
  ⟨by decide, c1_truncated_bands tkr_a name_a flat1000 (by decide),
    by with_unfolding_all decide⟩

/-- C2: `in_atr_buy` holds iff the last close lies in the closed interval
`[buy_atr_lo, buy_atr_hi]`, `in_pivot_buy` iff it lies in `[s2, s1]`;
the stored score is the base score (1.0 both flags, 0.5 exactly one, 0.0
neither) plus 0.3 exactly when `close ≤ PRICE_BONUS`, rounded to 4
decimals, and therefore lies in `{0, 0.3, 0.5, 0.8, 1.0, 1.3}`. -/
theorem c2_flags_and_score (tkr name : String) (bars : List Bar)
    (h : EMA_N + 1 ≤ bars.length) :
    ((calc_levels tkr name (some bars)).map LevelRecord.in_atr_buy = some true ↔
      buy_atr_lo_spec bars ≤ (lastBar bars).close ∧ (lastBar bars).close ≤ buy_atr_hi_spec bars)
    ∧ ((calc_levels tkr name (some bars)).map LevelRecord.in_pivot_buy = some true ↔
      s2_spec (lastBar bars) ≤ (lastBar bars).close ∧ (lastBar bars).close ≤ s1_spec (lastBar bars))
    ∧ (calc_levels tkr name (some bars)).map LevelRecord.score = some (round4 (score_spec bars))
    ∧ score_spec bars =
      (if in_atr_spec bars && in_pivot_spec bars then (1 : ℚ)
        else if in_atr_spec bars || in_pivot_spec bars then 1/2 else 0) +
      (if (lastBar bars).close ≤ PRICE_BONUS then 3/10 else 0)
    ∧ round4 (score_spec bars) ∈ ([0, 3/10, 1/2, 4/5, 1, 13/10] : List ℚ) := by
  rw [calc_levels_eq_spec tkr name bars h]
  refine ⟨?_, ?_, rfl, rfl, ?_⟩
  · simp only [Option.map_some', Option.some.injEq, in_atr_spec, decide_eq_true_eq]
  · simp only [Option.map_some', Option.some.injEq, in_pivot_spec, decide_eq_true_eq]
  · unfold score_spec
    split
    · split
      · exact by with_unfolding_all decide
      · exact by with_unfolding_all decide
    · split
      · split
        · exact by with_unfolding_all decide
        · exact by with_unfolding_all decide
      · split
        · exact by with_unfolding_all decide
        · exact by with_unfolding_all decide

/-- C2, witness: on `flat1000` both flags are false (close 1000 sits above
both bands) and the stored score is the bonus alone, `0.3`. -/
theorem c2_flags_and_score_witness :
    (EMA_N + 1 ≤ flat1000.length)
    ∧ (((calc_levels tkr_a name_a (some flat1000)).map LevelRecord.in_atr_buy = some true ↔
        buy_atr_lo_spec flat1000 ≤ (lastBar flat1000).close ∧
          (lastBar flat1000).close ≤ buy_atr_hi_spec flat1000)
      ∧ ((calc_levels tkr_a name_a (some flat1000)).map LevelRecord.in_pivot_buy = some true ↔
        s2_spec (lastBar flat1000) ≤ (lastBar flat1000).close ∧
          (lastBar flat1000).close ≤ s1_spec (lastBar flat1000))
      ∧ (calc_levels tkr_a name_a (some flat1000)).map LevelRecord.score =
          some (round4 (score_spec flat1000))
      ∧ score_spec flat1000 =
        (if in_atr_spec flat1000 && in_pivot_spec flat1000 then (1 : ℚ)
          else if in_atr_spec flat1000 || in_pivot_spec flat1000 then 1/2 else 0) +
        (if (lastBar flat1000).close ≤ PRICE_BONUS then 3/10 else 0)
      ∧ round4 (score_spec flat1000) ∈ ([0, 3/10, 1/2, 4/5, 1, 13/10] : List ℚ))
    ∧ ((calc_levels tkr_a name_a (some flat1000)).map LevelRecord.score = some (3/10)
      ∧ (calc_levels tkr_a name_a (some flat1000)).map LevelRecord.in_atr_buy = some false
      ∧ (calc_levels tkr_a name_a (some flat1000)).map LevelRecord.in_pivot_buy = some false) :=
  ⟨by decide, c2_flags_and_score tkr_a name_a flat1000 (by decide),
    by with_unfolding_all decide⟩

/-- C4: the pivot levels stored in the record come from the most recent
bar's high, low and close by the classic formulas `pp = (h+l+c)/3`,
`s1 = 2·pp − h`, `r1 = 2·pp − l`, `s2 = pp − (h−l)`, `r2 = pp + (h−l)`. -/
theorem c4_pivots (tkr name : String) (bars : List Bar)
    (h : EMA_N + 1 ≤ bars.length) :
    (calc_levels tkr name (some bars)).map LevelRecord.buy_pivot =
      some (fmtRange (pyInt (s2_spec (lastBar bars))) (pyInt (s1_spec (lastBar bars))))
    ∧ (calc_levels tkr name (some bars)).map LevelRecord.sell_pivot =
      some (fmtRange (pyInt (r1_spec (lastBar bars))) (pyInt (r2_spec (lastBar bars))))
    ∧ pp_spec (lastBar bars) =
      ((lastBar bars).high + (lastBar bars).low + (lastBar bars).close) / 3
    ∧ s1_spec (lastBar bars) = 2 * pp_spec (lastBar bars) - (lastBar bars).high
    ∧ r1_spec (lastBar bars) = 2 * pp_spec (lastBar bars) - (lastBar bars).low
    ∧ s2_spec (lastBar bars) = pp_spec (lastBar bars) - ((lastBar bars).high - (lastBar bars).low)
    ∧ r2_spec (lastBar bars) = pp_spec (lastBar bars) + ((lastBar bars).high - (lastBar bars).low) := by
  rw [calc_levels_eq_spec tkr name bars h]
  exact ⟨rfl, rfl, rfl, rfl, rfl, rfl, rfl⟩

/-- C4, witness: on `flat105` the last bar is `h=105, l=95, c=100` and the
pivots are exactly the spec's example `pp=100, s1=95, r1=105, s2=90,
r2=110`. -/
theorem c4_pivots_witness :
    (EMA_N + 1 ≤ flat105.length)
    ∧ ((calc_levels tkr_a name_a (some flat105)).map LevelRecord.buy_pivot =
        some (fmtRange (pyInt (s2_spec (lastBar flat105))) (pyInt (s1_spec (lastBar flat105))))
      ∧ (calc_levels tkr_a name_a (some flat105)).map LevelRecord.sell_pivot =
        some (fmtRange (pyInt (r1_spec (lastBar flat105))) (pyInt (r2_spec (lastBar flat105))))
      ∧ pp_spec (lastBar flat105) =
        ((lastBar flat105).high + (lastBar flat105).low + (lastBar flat105).close) / 3
      ∧ s1_spec (lastBar flat105) = 2 * pp_spec (lastBar flat105) - (lastBar flat105).high
      ∧ r1_spec (lastBar flat105) = 2 * pp_spec (lastBar flat105) - (lastBar flat105).low
      ∧ s2_spec (lastBar flat105) =
        pp_spec (lastBar flat105) - ((lastBar flat105).high - (lastBar flat105).low)
      ∧ r2_spec (lastBar flat105) =
        pp_spec (lastBar flat105) + ((lastBar flat105).high - (lastBar flat105).low))
    ∧ (pp_spec (lastBar flat105) = 100 ∧ s1_spec (lastBar flat105) = 95
      ∧ r1_spec (lastBar flat105) = 105 ∧ s2_spec (lastBar flat105) = 90
      ∧ r2_spec (lastBar flat105) = 110
      ∧ (calc_levels tkr_a name_a (some flat105)).map LevelRecord.buy_pivot = some "90~95"
      ∧ (calc_levels tkr_a name_a (some flat105)).map LevelRecord.sell_pivot = some "105~110") :=
  ⟨by decide, c4_pivots tkr_a name_a flat105 (by decide),
    by with_unfolding_all decide⟩

/-- C5: the stored `atr` is the plain arithmetic mean of the last `ATR_N`
Wilder-style true ranges `max(high[i]−low[i], |high[i]−close[i−1]|,
|low[i]−close[i−1]|)` — a simple rolling mean, not Wilder smoothing. -/
theorem c5_atr_is_rolling_mean (tkr name : String) (bars : List Bar)
    (h : EMA_N + 1 ≤ bars.length) :
    (calc_levels tkr name (some bars)).map LevelRecord.atr = some (atr_spec bars)
    ∧ atr_spec bars = mean ((List.range' (bars.length - ATR_N) ATR_N).map (true_range bars))
    ∧ ∀ i : ℕ, true_range bars i =
      max ((bars.getD i default).high - (bars.getD i default).low)
        (max |(bars.getD i default).high - (bars.getD (i - 1) default).close|
          |(bars.getD i default).low - (bars.getD (i - 1) default).close|) := by
  rw [calc_levels_eq_spec tkr name bars h]
  exact ⟨rfl, rfl, fun i => rfl⟩

/-- C5, witness: on `flat1000` every true range is 50 and the ATR is 50. -/
theorem c5_atr_is_rolling_mean_witness :
    (EMA_N + 1 ≤ flat1000.length)
    ∧ ((calc_levels tkr_a name_a (some flat1000)).map LevelRecord.atr = some (atr_spec flat1000)
      ∧ atr_spec flat1000 =
        mean ((List.range' (flat1000.length - ATR_N) ATR_N).map (true_range flat1000))
      ∧ ∀ i : ℕ, true_range flat1000 i =
        max ((flat1000.getD i default).high - (flat1000.getD i default).low)
          (max |(flat1000.getD i default).high - (flat1000.getD (i - 1) default).close|
            |(flat1000.getD i default).low - (flat1000.getD (i - 1) default).close|))
    ∧ atr_spec flat1000 = 50 :=
  ⟨by decide, c5_atr_is_rolling_mean tkr_a name_a flat1000 (by decide),
    by with_unfolding_all decide⟩

/-- C8: lower ≤ upper for all four bands, at full precision and after
truncation.  The ATR bands need nothing beyond `atr ≥ 0`; the pivot bands
hold for every well-formed OHLC bar (`low ≤ close ≤ high`), which is what
the market data provider delivers. -/
theorem c8_bands_ordered (tkr name : String) (bars : List Bar)
    (h : EMA_N + 1 ≤ bars.length)
    (hlc : (lastBar bars).low ≤ (lastBar bars).close)
    (hch : (lastBar bars).close ≤ (lastBar bars).high) :
    buy_atr_lo_spec bars ≤ buy_atr_hi_spec bars
    ∧ sell_atr_lo_spec bars ≤ sell_atr_hi_spec bars
    ∧ s2_spec (lastBar bars) ≤ s1_spec (lastBar bars)
    ∧ r1_spec (lastBar bars) ≤ r2_spec (lastBar bars)
    ∧ pyInt (buy_atr_lo_spec bars) ≤ pyInt (buy_atr_hi_spec bars)
    ∧ pyInt (sell_atr_lo_spec bars) ≤ pyInt (sell_atr_hi_spec bars)
    ∧ pyInt (s2_spec (lastBar bars)) ≤ pyInt (s1_spec (lastBar bars))
    ∧ pyInt (r1_spec (lastBar bars)) ≤ pyInt (r2_spec (lastBar bars))
    ∧ (calc_levels tkr name (some bars)).map LevelRecord.buy_atr =
      some (fmtRange (pyInt (buy_atr_lo_spec bars)) (pyInt (buy_atr_hi_spec bars))) := by
  have hatr := atr_spec_nonneg bars
  have h1 : buy_atr_lo_spec bars ≤ buy_atr_hi_spec bars := by
    unfold buy_atr_lo_spec buy_atr_hi_spec; linarith
  have h2 : sell_atr_lo_spec bars ≤ sell_atr_hi_spec bars := by
    unfold sell_atr_lo_spec sell_atr_hi_spec; linarith
  have h3 : s2_spec (lastBar bars) ≤ s1_spec (lastBar bars) := by
    unfold s1_spec s2_spec pp_spec; linarith
  have h4 : r1_spec (lastBar bars) ≤ r2_spec (lastBar bars) := by
    unfold r1_spec r2_spec pp_spec; linarith
  refine ⟨h1, h2, h3, h4, pyInt_mono h1, pyInt_mono h2, pyInt_mono h3, pyInt_mono h4, ?_⟩
  rw [calc_levels_eq_spec tkr name bars h]
  rfl

/-- C8, witness: on `flat1000` (a well-formed OHLC bar series) all four
bands are ordered. -/
theorem c8_bands_ordered_witness :
    (EMA_N + 1 ≤ flat1000.length
      ∧ (lastBar flat1000).low ≤ (lastBar flat1000).close
      ∧ (lastBar flat1000).close ≤ (lastBar flat1000).high)
    ∧ (buy_atr_lo_spec flat1000 ≤ buy_atr_hi_spec flat1000
      ∧ sell_atr_lo_spec flat1000 ≤ sell_atr_hi_spec flat1000
      ∧ s2_spec (lastBar flat1000) ≤ s1_spec (lastBar flat1000)
      ∧ r1_spec (lastBar flat1000) ≤ r2_spec (lastBar flat1000)
      ∧ pyInt (buy_atr_lo_spec flat1000) ≤ pyInt (buy_atr_hi_spec flat1000)
      ∧ pyInt (sell_atr_lo_spec flat1000) ≤ pyInt (sell_atr_hi_spec flat1000)
      ∧ pyInt (s2_spec (lastBar flat1000)) ≤ pyInt (s1_spec (lastBar flat1000))
      ∧ pyInt (r1_spec (lastBar flat1000)) ≤ pyInt (r2_spec (lastBar flat1000))
      ∧ (calc_levels tkr_a name_a (some flat1000)).map LevelRecord.buy_atr =
        some (fmtRange (pyInt (buy_atr_lo_spec flat1000)) (pyInt (buy_atr_hi_spec flat1000)))) :=
  ⟨⟨by decide, by with_unfolding_all decide, by with_unfolding_all decide⟩,
    c8_bands_ordered tkr_a name_a flat1000 (by decide)
      (by with_unfolding_all decide) (by with_unfolding_all decide)⟩

/-- C10: on any accepted series whose bars all have `high ≥ low`, the
pre-truncation ATR levels are mutually ordered: `stop ≤ buy_atr_lo ≤
buy_atr_hi ≤ sell_atr_lo ≤ sell_atr_hi` (the buy band lies below the sell
band and the stop at or below the buy band, since `atr ≥ 0` and
`stop = min(s2, ema − 1.5·atr)`). -/
theorem c10_levels_ordered (tkr name : String) (bars : List Bar)
    (h : EMA_N + 1 ≤ bars.length) (_hb : ∀ b ∈ bars, b.low ≤ b.high) :
    stop_spec bars ≤ buy_atr_lo_spec bars
    ∧ buy_atr_lo_spec bars ≤ buy_atr_hi_spec bars
    ∧ buy_atr_hi_spec bars ≤ sell_atr_lo_spec bars
    ∧ sell_atr_lo_spec bars ≤ sell_atr_hi_spec bars
    ∧ (calc_levels tkr name (some bars)).map LevelRecord.stop = some (pyInt (stop_spec bars)) := by
  have hatr := atr_spec_nonneg bars
  have h0 : stop_spec bars ≤ ema_spec bars - 3/2 * atr_spec bars := by
    unfold stop_spec; exact min_le_right _ _
  refine ⟨?_, ?_, ?_, ?_, ?_⟩
  · unfold buy_atr_lo_spec
    linarith
  · unfold buy_atr_lo_spec buy_atr_hi_spec; linarith
  · unfold buy_atr_hi_spec sell_atr_lo_spec; linarith
  · unfold sell_atr_lo_spec sell_atr_hi_spec; linarith
  · rw [calc_levels_eq_spec tkr name bars h]
    rfl

/-- C10, witness: the ordering on `flat1000`, whose bars all satisfy
`high ≥ low`. -/
theorem c10_levels_ordered_witness :
    (EMA_N + 1 ≤ flat1000.length ∧ ∀ b ∈ flat1000, b.low ≤ b.high)
    ∧ (stop_spec flat1000 ≤ buy_atr_lo_spec flat1000
      ∧ buy_atr_lo_spec flat1000 ≤ buy_atr_hi_spec flat1000
      ∧ buy_atr_hi_spec flat1000 ≤ sell_atr_lo_spec flat1000
      ∧ sell_atr_lo_spec flat1000 ≤ sell_atr_hi_spec flat1000
      ∧ (calc_levels tkr_a name_a (some flat1000)).map LevelRecord.stop =
        some (pyInt (stop_spec flat1000))) :=
  ⟨⟨by decide, by with_unfolding_all decide⟩,
    c10_levels_ordered tkr_a name_a flat1000 (by decide) (by with_unfolding_all decide)⟩

/-- The batch loop fails with an exception iff some entry's fetch raises. -/
theorem run_batch_error_iff : ∀ (batch : List (String × String × Fetch (List Bar))),
    run_batch batch = Except.error () ↔ ∃ e ∈ batch, e.2.2 = Fetch.err
  | [] => by
    constructor
    · intro h
      exact absurd h (by simp [run_batch])
    · rintro ⟨e, he, -⟩
      exact absurd he (List.not_mem_nil e)
  | (t, n, f) :: rest => by
    have ih := run_batch_error_iff rest
    constructor
    · intro h
      cases f with
      | err => exact ⟨(t, n, Fetch.err), List.mem_cons_self _ _, rfl⟩
      | missing =>
        simp only [run_batch, calc_levels_fetch] at h
        cases hr : run_batch rest with
        | error e =>
          cases e
          obtain ⟨e', hm, hp⟩ := ih.mp hr
          exact ⟨e', List.mem_cons_of_mem _ hm, hp⟩
        | ok rows =>
          rw [hr] at h
          exact absurd h (by simp)
      | ok bars =>
        simp only [run_batch, calc_levels_fetch] at h
        cases hr : run_batch rest with
        | error e =>
          cases e
          obtain ⟨e', hm, hp⟩ := ih.mp hr
          exact ⟨e', List.mem_cons_of_mem _ hm, hp⟩
        | ok rows =>
          rw [hr] at h
          cases calc_levels t n (some bars) <;> exact absurd h (by simp)
    · rintro ⟨e, he, hee⟩
      rcases List.mem_cons.mp he with rfl | hrest
      · cases f with
        | err => simp [run_batch, calc_levels_fetch]
        | missing => exact absurd hee (by simp)
        | ok bars => exact absurd hee (by simp)
      · have hrb : run_batch rest = Except.error () := ih.mpr ⟨e, hrest, hee⟩
        cases f with
        | err => simp [run_batch, calc_levels_fetch]
        | missing => simp [run_batch, calc_levels_fetch, hrb]
        | ok bars => simp [run_batch, calc_levels_fetch, hrb]

/-- When no fetch raises, the batch completes and returns exactly the
successfully computed records, in order. -/
theorem run_batch_ok_of_no_err : ∀ (batch : List (String × String × Fetch (List Bar))),
    (∀ e ∈ batch, e.2.2 ≠ Fetch.err) →
    run_batch batch =
      Except.ok (batch.filterMap (fun e => calc_levels e.1 e.2.1 (fetch_df e.2.2)))
  | [], _ => rfl
  | (t, n, f) :: rest, h => by
    have ih := run_batch_ok_of_no_err rest (fun e he => h e (List.mem_cons_of_mem _ he))
    cases f with
    | err => exact absurd rfl (h (t, n, Fetch.err) (List.mem_cons_self _ _))
    | missing =>
      simp only [run_batch, calc_levels_fetch, ih, List.filterMap_cons, fetch_df]
      rfl
    | ok bars =>
      simp only [run_batch, calc_levels_fetch, ih, List.filterMap_cons, fetch_df]
      cases calc_levels t n (some bars) <;> rfl

/-- C3, counterexample to the claim as stated: a raising fetch does NOT
merely skip that ticker — the whole batch aborts.  With one healthy entry
and one whose fetch raises, `run_batch` returns the error (and the healthy
record is lost), while the healthy entry alone succeeds. -/
theorem c3_abort_counterexample :
    run_batch [good_entry, err_entry] = Except.error ()
    ∧ run_batch [good_entry] ≠ Except.error () := by
  with_unfolding_all decide

/-- C3, amended: `calc_levels` returns `None` when the fetched frame is
missing or shorter than `EMA_N + 1` bars, and a fetch failure that
manifests as missing/short data only skips that ticker; but a fetch that
raises propagates out of the unguarded loop in `main` and aborts the whole
batch — the batch succeeds (with exactly the computed records) iff no
entry raises. -/
theorem c3_skip_and_abort (tkr name : String) :
    calc_levels tkr name none = none
    ∧ (∀ bars : List Bar, bars.length < EMA_N + 1 → calc_levels tkr name (some bars) = none)
    ∧ (∀ batch : List (String × String × Fetch (List Bar)),
        (run_batch batch = Except.error () ↔ ∃ e ∈ batch, e.2.2 = Fetch.err))
    ∧ (∀ batch : List (String × String × Fetch (List Bar)),
        (∀ e ∈ batch, e.2.2 ≠ Fetch.err) →
        run_batch batch =
          Except.ok (batch.filterMap (fun e => calc_levels e.1 e.2.1 (fetch_df e.2.2)))) :=
  ⟨rfl, fun bars h => by simp only [calc_levels, if_pos h],
    run_batch_error_iff, run_batch_ok_of_no_err⟩

/-- C3, witness: an empty frame is skipped; a raising singleton batch
errors; a healthy singleton batch returns its record. -/
theorem c3_skip_and_abort_witness :
    (([] : List Bar).length < EMA_N + 1 ∧ calc_levels tkr_a name_a (some ([] : List Bar)) = none)
    ∧ run_batch [err_entry] = Except.error ()
    ∧ run_batch [good_entry] =
        Except.ok ([good_entry].filterMap (fun e => calc_levels e.1 e.2.1 (fetch_df e.2.2))) :=
  ⟨⟨by decide, (c3_skip_and_abort tkr_a name_a).2.1 [] (by decide)⟩,
    ((c3_skip_and_abort tkr_a name_a).2.2.1 [err_entry]).mpr
      ⟨err_entry, List.mem_singleton_self _, rfl⟩,
    (c3_skip_and_abort tkr_a name_a).2.2.2 [good_entry] (by decide)⟩

/-- The two-key ranking order is transitive. -/
theorem rankLE_trans : ∀ (a b c : LevelRecord), rankLE a b → rankLE b c → rankLE a c := by
  intro a b c hab hbc
  simp only [rankLE, Bool.or_eq_true, Bool.and_eq_true, decide_eq_true_eq] at hab hbc ⊢
  rcases hab with h | ⟨h1, h2⟩ <;> rcases hbc with h' | ⟨h1', h2'⟩
  · exact Or.inl (lt_trans h' h)
  · exact Or.inl (by rw [← h1']; exact h)
  · exact Or.inl (by rw [h1]; exact h')
  · exact Or.inr ⟨h1.trans h1', le_trans h2' h2⟩

/-- The two-key ranking order is total. -/
theorem rankLE_total : ∀ (a b : LevelRecord), rankLE a b || rankLE b a := by
  intro a b
  simp only [rankLE, Bool.or_eq_true, Bool.and_eq_true, decide_eq_true_eq]
  rcases lt_trichotomy a.score b.score with h | h | h
  · exact Or.inr (Or.inl h)
  · rcases le_total b.close a.close with hc | hc
    · exact Or.inl (Or.inr ⟨h, hc⟩)
    · exact Or.inr (Or.inr ⟨h.symm, hc⟩)
  · exact Or.inl (Or.inl h)

/-- Stability of the ranking sort: the rows tied on both sort keys appear
in the sorted output exactly in their input order. -/
theorem mergeSort_filter_tied (rows : List LevelRecord) (s : ℚ) (c : ℤ) :
    (rows.mergeSort rankLE).filter (fun r => decide (r.score = s) && decide (r.close = c)) =
      rows.filter (fun r => decide (r.score = s) && decide (r.close = c)) := by
  have hsub : List.Sublist (rows.filter (fun r => decide (r.score = s) && decide (r.close = c))) rows :=
    List.filter_sublist rows
  have hpair : (rows.filter (fun r => decide (r.score = s) && decide (r.close = c))).Pairwise
      (fun a b => rankLE a b) := by
    apply List.pairwise_of_forall_mem_list
    intro a ha b hb
    have ha' := (List.mem_filter.mp ha).2
    have hb' := (List.mem_filter.mp hb).2
    simp only [Bool.and_eq_true, decide_eq_true_eq] at ha' hb'
    simp only [rankLE, Bool.or_eq_true, Bool.and_eq_true, decide_eq_true_eq]
    exact Or.inr ⟨ha'.1.trans hb'.1.symm, le_of_eq (hb'.2.trans ha'.2.symm)⟩
  have h1 := List.sublist_mergeSort rankLE_trans rankLE_total hpair hsub
  have h2 := h1.filter (fun r => decide (r.score = s) && decide (r.close = c))
  rw [List.filter_eq_self.mpr (fun a ha => (List.mem_filter.mp ha).2)] at h2
  have h3 := ((List.mergeSort_perm rows rankLE).filter
    (fun r => decide (r.score = s) && decide (r.close = c))).length_eq
  exact (h2.eq_of_length h3.symm).symm

/-- C6: for every record list and every `n` (the code uses `head(10)`),
the ranking returns exactly `min n len` rows: the first `n` rows of the
stable two-key sort (score descending, close descending), with ranks
`1..min n len` in order; rows tied on both keys keep their input order. -/
theorem c6_ranking (rows : List LevelRecord) (n : ℕ) :
    (rank_rows rows n).length = min n rows.length
    ∧ (rank_rows rows n).map Prod.snd = (rows.mergeSort rankLE).take n
    ∧ (rank_rows rows n).map Prod.fst = List.range' 1 (min n rows.length)
    ∧ ((rank_rows rows n).map Prod.snd).Pairwise (fun a b => rankLE a b = true)
    ∧ (rows.mergeSort rankLE).Perm rows
    ∧ top10 rows = rank_rows rows 10
    ∧ ∀ (s : ℚ) (c : ℤ),
        (rows.mergeSort rankLE).filter (fun r => decide (r.score = s) && decide (r.close = c)) =
          rows.filter (fun r => decide (r.score = s) && decide (r.close = c)) := by
  have hlen : ((rows.mergeSort rankLE).take n).length = min n rows.length := by
    rw [List.length_take, (List.mergeSort_perm rows rankLE).length_eq]
  have hsnd : (rank_rows rows n).map Prod.snd = (rows.mergeSort rankLE).take n := by
    unfold rank_rows
    rw [List.map_map]
    have : (Prod.snd ∘ fun p : ℕ × LevelRecord => (p.1 + 1, p.2)) = Prod.snd := rfl
    rw [this, List.enum_map_snd]
  refine ⟨?_, hsnd, ?_, ?_, List.mergeSort_perm rows rankLE, rfl, mergeSort_filter_tied rows⟩
  · unfold rank_rows
    rw [List.length_map, List.enum_length, hlen]
  · unfold rank_rows
    rw [List.map_map]
    have h2 : Prod.fst ∘ (fun p : ℕ × LevelRecord => (p.1 + 1, p.2))
        = (fun k : ℕ => 1 + k) ∘ Prod.fst := by
      funext p
      simp [Nat.add_comm]
    rw [h2, ← List.map_map, List.enum_map_fst, ← List.range'_eq_map_range, hlen]
  · rw [hsnd]
    exact (List.sorted_mergeSort rankLE_trans rankLE_total rows).sublist (List.take_sublist n _)

/-- The market-cap descending order is transitive. -/
theorem capLE_trans : ∀ (a b c : TickerSnapshot), capLE a b → capLE b c → capLE a c := by
  intro a b c hab hbc
  simp only [capLE, decide_eq_true_eq] at hab hbc ⊢
  exact le_trans hbc hab

/-- The market-cap descending order is total. -/
theorem capLE_total : ∀ (a b : TickerSnapshot), capLE a b || capLE b a := by
  intro a b
  simp only [capLE, Bool.or_eq_true, decide_eq_true_eq]
  exact le_total b.market_cap a.market_cap

/-- C7: every ticker in the built universe passed the liquidity screen;
the screen accepts exactly fetched frames with at least 25 bars whose
20-bar mean traded value (volume×close if the value column is missing) is
non-zero and at least `MIN_TRADING_VALUE` — so a frame with fewer than 25
bars is excluded regardless of traded value and a raised or empty fetch is
silently excluded; the result is at most `TOP_N` tickers in market-cap
descending order. -/
theorem c7_universe (caps : List TickerSnapshot) (fetch : String → Fetch UniBars)
    (t : TickerSnapshot) (ht : t ∈ build_universe caps fetch) :
    liquidity_ok (fetch t.ticker) = true
    ∧ (build_universe caps fetch).length ≤ TOP_N
    ∧ ((build_universe caps fetch).map TickerSnapshot.market_cap).Pairwise (fun a b => b ≤ a)
    ∧ liquidity_ok (Fetch.err : Fetch UniBars) = false
    ∧ liquidity_ok (Fetch.missing : Fetch UniBars) = false
    ∧ (∀ f : Fetch UniBars, liquidity_ok f = true ↔
        ∃ d, f = Fetch.ok d ∧ 25 ≤ d.bars.length ∧ avg_val d ≠ 0 ∧ MIN_TRADING_VALUE ≤ avg_val d) := by
  refine ⟨?_, ?_, ?_, rfl, rfl, ?_⟩
  · simp only [build_universe] at ht
    have h1 := List.mem_mergeSort.mp (List.mem_of_mem_take ht)
    exact (List.mem_filter.mp h1).2
  · simp only [build_universe]
    exact List.length_take_le _ _
  · simp only [build_universe]
    apply List.pairwise_map.mpr
    apply List.Pairwise.imp ?_
      ((List.sorted_mergeSort capLE_trans capLE_total _).sublist (List.take_sublist _ _))
    intro a b hab
    simpa only [capLE, decide_eq_true_eq] using hab
  · intro f
    cases f with
    | err =>
      simp only [liquidity_ok]
      constructor
      · intro h
        exact absurd h (by simp)
      · rintro ⟨d, hd, -⟩
        exact absurd hd (by simp)
    | missing =>
      simp only [liquidity_ok]
      constructor
      · intro h
        exact absurd h (by simp)
      · rintro ⟨d, hd, -⟩
        exact absurd hd (by simp)
    | ok d =>
      simp only [liquidity_ok]
      split
      · next hlt =>
        constructor
        · intro h
          exact absurd h (by simp)
        · rintro ⟨d', hd, h25, -⟩
          cases hd
          omega
      · next hge =>
        rw [Bool.and_eq_true, decide_eq_true_eq, decide_eq_true_eq]
        constructor
        · rintro ⟨hne, hmin⟩
          exact ⟨d, rfl, by omega, hne, hmin⟩
        · rintro ⟨d', hd, -, hne, hmin⟩
          cases hd
          exact ⟨hne, hmin⟩

/-- C7, witness: a single liquid ticker with 25 bars of traded value
6·10⁹ survives the screen and is returned. -/
theorem c7_universe_witness :
    (snap_a ∈ build_universe [snap_a] fetch_w)
    ∧ (liquidity_ok (fetch_w snap_a.ticker) = true
      ∧ (build_universe [snap_a] fetch_w).length ≤ TOP_N
      ∧ ((build_universe [snap_a] fetch_w).map TickerSnapshot.market_cap).Pairwise
          (fun a b => b ≤ a)
      ∧ liquidity_ok (Fetch.err : Fetch UniBars) = false
      ∧ liquidity_ok (Fetch.missing : Fetch UniBars) = false
      ∧ (∀ f : Fetch UniBars, liquidity_ok f = true ↔
          ∃ d, f = Fetch.ok d ∧ 25 ≤ d.bars.length ∧ avg_val d ≠ 0 ∧
            MIN_TRADING_VALUE ≤ avg_val d))
    ∧ liquidity_ok (Fetch.ok ⟨true, List.replicate 20 ⟨6000000000, 0, 0⟩⟩) = false :=
  ⟨by with_unfolding_all decide,
    c7_universe [snap_a] fetch_w snap_a (by with_unfolding_all decide),
    by with_unfolding_all decide⟩

/-- C9: joined by ticker to a universe record, a position is flagged
exactly when both the sell-band upper bound (the integer after the `~` in
`sell_atr`) and the average cost parse, and the average cost is strictly
below the bound; an unparseable band or a missing/blank average cost
silently yields no alert. -/
theorem c9_position_alerts (records : List LevelRecord) (p : Position) (r : LevelRecord)
    (hr : records.find? (fun q => q.ticker == p.ticker) = some r) :
    ((eval_position records p).isSome = true ↔
      ∃ hi a, sell_upper r.sell_atr = some hi ∧ avg_cost_int p.avg_cost = some a ∧ a < hi)
    ∧ (∀ hi a, sell_upper r.sell_atr = some hi → avg_cost_int p.avg_cost = some a → a < hi →
        eval_position records p =
          some { ticker := p.ticker, name := if p.name = "" then r.name else p.name,
                 target := hi, avg_cost := a })
    ∧ (sell_upper r.sell_atr = none → eval_position records p = none)
    ∧ (avg_cost_int p.avg_cost = none → eval_position records p = none)
    ∧ ((trim_chars p.avg_cost.toList).isEmpty = true → avg_cost_int p.avg_cost = none)
    ∧ (∀ ps : List Position,
        check_positions_and_alert ps records = ps.filterMap (eval_position records)) := by
  refine ⟨?_, ?_, ?_, ?_, ?_, fun ps => rfl⟩
  · unfold eval_position
    rw [hr]
    cases hs : sell_upper r.sell_atr with
    | none => simp [hs]
    | some hi =>
      cases ha : avg_cost_int p.avg_cost with
      | none => simp [hs, ha]
      | some a =>
        by_cases hab : a < hi
        · simp [hs, ha, hab]
        · simp [hs, ha, hab]
  · intro hi a hs ha hab
    unfold eval_position
    simp [hr, hs, ha, hab]
  · intro hs
    unfold eval_position
    simp [hr, hs]
  · intro ha
    unfold eval_position
    rw [hr]
    cases hs : sell_upper r.sell_atr with
    | none => simp [hs, ha]
    | some hi => simp [hs, ha]
  · intro h
    unfold avg_cost_int
    rw [if_pos h]

/-- C9, witness: against the band `1025~1050`, average cost 900 is
flagged (900 < 1050) and average cost 1100 is not. -/
theorem c9_position_alerts_witness :
    ([rec_sell].find? (fun q => q.ticker == pos900.ticker) = some rec_sell)
    ∧ (((eval_position [rec_sell] pos900).isSome = true ↔
        ∃ hi a, sell_upper rec_sell.sell_atr = some hi ∧
          avg_cost_int pos900.avg_cost = some a ∧ a < hi)
      ∧ (∀ hi a, sell_upper rec_sell.sell_atr = some hi →
          avg_cost_int pos900.avg_cost = some a → a < hi →
          eval_position [rec_sell] pos900 =
            some { ticker := pos900.ticker,
                   name := if pos900.name = "" then rec_sell.name else pos900.name,
                   target := hi, avg_cost := a })
      ∧ (sell_upper rec_sell.sell_atr = none → eval_position [rec_sell] pos900 = none)
      ∧ (avg_cost_int pos900.avg_cost = none → eval_position [rec_sell] pos900 = none)
      ∧ ((trim_chars pos900.avg_cost.toList).isEmpty = true →
          avg_cost_int pos900.avg_cost = none)
      ∧ (∀ ps : List Position,
          check_positions_and_alert ps [rec_sell] = ps.filterMap (eval_position [rec_sell])))
    ∧ (eval_position [rec_sell] pos900 = some ⟨"AAA", "Me", 1050, 900⟩
      ∧ eval_position [rec_sell] pos1100 = none
      ∧ sell_upper rec_sell.sell_atr = some 1050
      ∧ avg_cost_int pos900.avg_cost = some 900
      ∧ avg_cost_int pos1100.avg_cost = some 1100
      ∧ avg_cost_int "" = none) :=
  ⟨by with_unfolding_all decide,
    c9_position_alerts [rec_sell] pos900 rec_sell (by with_unfolding_all decide),
    by with_unfolding_all decide⟩

end StockBot
